import Mathlib

/-!
# Verification of the franko document-structure-recovery pipeline

A shallow embedding of the format-parsing subsystem of the repository
(`src/formats/{book,txt,pdf,epub,markdown,mod}.rs`) and proofs about it.

Strings are modelled as `List Char`; Rust byte lengths coincide with character
counts on the ASCII inputs exercised here, and the Unicode character classes
(`char::is_uppercase`, `is_alphabetic`, `is_numeric`, `is_whitespace`,
`is_control`) are restricted to their ASCII fragments, which agree with Rust
on every input this development evaluates.  Results obtained from external
crates (the `epub` container reader, `pdf_extract`, `pulldown_cmark`,
`html2text`) are taken as inputs of the corresponding Lean functions, exactly
as the Rust code receives them; everything downstream of those boundaries is
translated from the repository's own source.
-/

/-- Rust `&str`, modelled as a list of characters. -/
abbrev Str := List Char

/-- ASCII fragment of Rust `char::is_whitespace` (Unicode White_Space):
space, tab, newline, carriage return, vertical tab, form feed. -/
def isWsChar (c : Char) : Bool :=
  c = ' ' || c = '\t' || c = '\n' || c = '\r' || c = '\x0b' || c = '\x0c'

/-- ASCII fragment of Rust `char::is_uppercase`. -/
def isAsciiUpperCh (c : Char) : Bool := 'A' ≤ c && c ≤ 'Z'

/-- ASCII fragment of Rust `char::is_lowercase`. -/
def isAsciiLowerCh (c : Char) : Bool := 'a' ≤ c && c ≤ 'z'

/-- ASCII fragment of Rust `char::is_alphabetic`. -/
def isAsciiAlphaCh (c : Char) : Bool := isAsciiUpperCh c || isAsciiLowerCh c

/-- ASCII fragment of Rust `char::is_numeric`. -/
def isAsciiDigitCh (c : Char) : Bool := '0' ≤ c && c ≤ '9'

/-- Rust `char::is_control` (the Cc category: U+0000..U+001F, U+007F,
U+0080..U+009F). -/
def isControlCh (c : Char) : Bool :=
  c.toNat < 32 || c.toNat = 127 || (128 ≤ c.toNat && c.toNat ≤ 159)

/-- ASCII fragment of Rust `char::to_lowercase` on one character. -/
def asciiLowerCh (c : Char) : Char :=
  if isAsciiUpperCh c then Char.ofNat (c.toNat + 32) else c

/-- ASCII fragment of Rust `str::to_lowercase`. -/
def asciiLower (s : Str) : Str := s.map asciiLowerCh

/-- Rust `str::trim_start` (ASCII whitespace fragment). -/
def trimLeft (s : Str) : Str := s.dropWhile isWsChar

/-- Rust `str::trim_end` (ASCII whitespace fragment). -/
def trimRight (s : Str) : Str := (s.reverse.dropWhile isWsChar).reverse

/-- Rust `str::trim` (ASCII whitespace fragment). -/
def trim (s : Str) : Str := trimRight (trimLeft s)

/-- Rust `str::ends_with(c)` for a single character. -/
def endsWithCh (s : Str) (c : Char) : Bool := s.getLast? = some c

/-- Rust `str::starts_with(p)` for a string pattern. -/
def hasPrefixStr : Str → Str → Bool
  | [], _ => true
  | _ :: _, [] => false
  | p :: ps, s :: ss => p = s && hasPrefixStr ps ss

/-- Rust `str::find(pat)`: byte index of the first occurrence of `pat`. -/
def findSubstrIdx (pat : Str) : Str → Option Nat
  | [] => if hasPrefixStr pat [] then some 0 else none
  | s :: rest =>
    if hasPrefixStr pat (s :: rest) then some 0
    else (findSubstrIdx pat rest).map (· + 1)

/-- Rust `str::contains(pat)` for a string pattern. -/
def containsStr (pat s : Str) : Bool := (findSubstrIdx pat s).isSome

/-- Split at every occurrence of one character (`n` separators give `n+1`
pieces), the building block of Rust `str::lines`. -/
def splitChAux (c : Char) : Str → Str → List Str
  | [], acc => [acc.reverse]
  | x :: xs, acc =>
    if x = c then acc.reverse :: splitChAux c xs []
    else splitChAux c xs (x :: acc)

def splitCh (c : Char) (s : Str) : List Str := splitChAux c s []

/-- Drop one trailing carriage return, as Rust `str::lines` does per line. -/
def stripCr (l : Str) : Str := if l.getLast? = some '\r' then l.dropLast else l

/-- Rust `str::lines`: split on `'\n'`, no trailing empty line for a trailing
newline, a trailing `'\r'` stripped from each line. -/
def rustLines (s : Str) : List Str :=
  if s = [] then []
  else
    let ps := splitCh '\n' s
    let ps := if s.getLast? = some '\n' then ps.dropLast else ps
    ps.map stripCr

/-- Rust `str::split_whitespace` (ASCII whitespace fragment). -/
def splitWsAux : Str → Str → List Str
  | [], acc => if acc = [] then [] else [acc.reverse]
  | x :: xs, acc =>
    if isWsChar x then
      if acc = [] then splitWsAux xs [] else acc.reverse :: splitWsAux xs []
    else splitWsAux xs (x :: acc)

def splitWhitespace (s : Str) : List Str := splitWsAux s []

/-- Rust `str::split("\n\n")`, specialised to the two-newline separator used
by the PDF and EPUB paragraph splitters (leftmost, non-overlapping). -/
def splitDoubleNlAux : Str → Str → List Str
  | '\n' :: '\n' :: rest, acc => acc.reverse :: splitDoubleNlAux rest []
  | x :: rest, acc => splitDoubleNlAux rest (x :: acc)
  | [], acc => [acc.reverse]

def splitDoubleNl (s : Str) : List Str := splitDoubleNlAux s []

/-- Rust `str::trim_end_matches(&[..])` for a set of characters. -/
def trimEndMatchesSet (s : Str) (set : List Char) : Str :=
  (s.reverse.dropWhile (fun c => set.contains c)).reverse

/-- Rust `str::trim_matches(&[..])` for a set of characters. -/
def trimMatchesSet (s : Str) (set : List Char) : Str :=
  ((s.dropWhile (fun c => set.contains c)).reverse.dropWhile
    (fun c => set.contains c)).reverse

/-- Rust `str::split_once(c)`. -/
def splitOnceCh (c : Char) : Str → Option (Str × Str)
  | [] => none
  | x :: xs =>
    if x = c then some ([], xs)
    else (splitOnceCh c xs).map (fun p => (x :: p.1, p.2))

/-- Decimal rendering of a natural number, as Rust `format!("{}", n)`. -/
def natToStr (n : Nat) : Str := (Nat.repr n).toList

/-- Join pieces with a single blank, as Rust `join(" ")`. -/
def joinSp : List Str → Str
  | [] => []
  | [x] => x
  | x :: xs => x ++ ' ' :: joinSp xs

/-! ## The canonical document model (`src/formats/book.rs`) -/

/-- `StyleType` of `book.rs`. -/
inductive StyleType where
  | Bold | Italic | Underline | Strikethrough | CodeStyle | Link
  | Superscript | Subscript | SmallCaps
deriving DecidableEq, Repr

/-- `TextStyle` of `book.rs` (fields `start`/`end` renamed: `end` is a Lean
keyword). -/
structure TextStyle where
  startPos : Nat
  endPos : Nat
  style_type : StyleType
deriving DecidableEq, Repr

/-- `ContentBlock` of `book.rs`: the closed tagged union of block kinds.
`List` is `ListB` (the name `List` is taken in Lean); `data` bytes are
naturals. -/
inductive ContentBlock where
  | Paragraph (text : Str) (styles : List TextStyle)
  | Heading (level : Nat) (text : Str)
  | Quote (text : Str) (attribution : Option Str)
  | Code (language : Option Str) (code : Str)
  | Image (src : Str) (alt : Option Str) (caption : Option Str)
      (data : Option (List Nat))
  | ListB (ordered : Bool) (items : List Str)
  | Separator
  | Footnote (id : Str) (content : Str)
  | RawHtml (html : Str)
  | Table (headers : List Str) (rows : List (List Str))
  | Break
deriving DecidableEq, Repr

/-- `Chapter` of `book.rs`. -/
structure Chapter where
  id : Str
  title : Option Str
  number : Option Nat
  blocks : List ContentBlock
  order : Nat
deriving DecidableEq, Repr

/-- `Chapter::new(id, order)`. -/
def Chapter.new (id : Str) (order : Nat) : Chapter :=
  { id := id, title := none, number := none, blocks := [], order := order }

/-- `TocEntry` of `book.rs`. -/
structure TocEntry where
  title : Str
  href : Str
  level : Nat
  children : List TocEntry

/-- `TocEntry::new(title, href, level)`. -/
def TocEntry.new (title href : Str) (level : Nat) : TocEntry :=
  { title := title, href := href, level := level, children := [] }

/-- `BookContent` of `book.rs`. -/
structure BookContent where
  chapters : List Chapter
  toc : List TocEntry

/-! ## Plain-text extractor (`src/formats/txt.rs`) -/

namespace Txt

/-- `is_roman_numeral` of `txt.rs`: non-empty and every character one of the
roman-numeral letters, in either case. -/
def is_roman_numeral (s : Str) : Bool :=
  !s.isEmpty && s.all (fun c =>
    c = 'I' || c = 'V' || c = 'X' || c = 'L' || c = 'C' || c = 'D' || c = 'M' ||
    c = 'i' || c = 'v' || c = 'x' || c = 'l' || c = 'c' || c = 'd' || c = 'm')

/-- `is_likely_header` of `txt.rs`: the plain-text heading heuristic, branch
for branch.  The second first-word check returns its word-count test as the
result (a numeric-looking first word with a bad word count yields `false`
without reaching the all-caps check), exactly as the Rust `return` does. -/
def is_likely_header (line : Str) : Bool :=
  if 80 < line.length then false
  else if endsWithCh line '.' || endsWithCh line ',' || endsWithCh line ':' then false
  else
    let lower := asciiLower line
    if hasPrefixStr "chapter ".toList lower || hasPrefixStr "part ".toList lower ||
       hasPrefixStr "section ".toList lower then true
    else
      let words := splitWhitespace line
      if (match words.head? with
          | some first => is_roman_numeral first
          | none => false) then true
      else
        match words.head? with
        | some first =>
          let first' := trimEndMatchesSet first ['.', ':', '-']
          if first'.all isAsciiDigitCh || is_roman_numeral first' then
            decide (1 < words.length) && decide (words.length ≤ 10)
          else
            decide (3 < line.length) &&
              (line.filter isAsciiAlphaCh).all isAsciiUpperCh &&
              line.contains ' '
        | none =>
          decide (3 < line.length) &&
            (line.filter isAsciiAlphaCh).all isAsciiUpperCh &&
            line.contains ' '

/-- One step of the line loop of `parse_text_content` in `txt.rs`: the
accumulator is (finished blocks, current paragraph). -/
def parse_step (st : List ContentBlock × Str) (line : Str) :
    List ContentBlock × Str :=
  let blocks := st.1
  let cur := st.2
  let trimmed := trim line
  if trimmed = [] then
    if cur = [] then (blocks, cur)
    else (blocks ++ [ContentBlock.Paragraph cur []], [])
  else if is_likely_header trimmed then
    let b1 := if cur = [] then blocks
              else blocks ++ [ContentBlock.Paragraph cur []]
    (b1 ++ [ContentBlock.Heading 2 trimmed], [])
  else
    (blocks, if cur = [] then trimmed else cur ++ ' ' :: trimmed)

/-- `parse_text_content` of `txt.rs`: group lines into paragraphs at blank
lines, classify heading-like lines, and wrap everything in the single
chapter `main`. -/
def parse_text_content (text : Str) : BookContent :=
  let st := (rustLines text).foldl parse_step ([], [])
  let blocks := if st.2 = [] then st.1
                else st.1 ++ [ContentBlock.Paragraph st.2 []]
  { chapters := [{ id := "main".toList, title := some "Document".toList,
                   number := none, blocks := blocks, order := 0 }],
    toc := [] }

/-- The title `txt.rs::parse` assigns: always the file stem (there is no
in-band metadata for plain text). -/
def metadata_title (stem : Str) : Str := stem

end Txt

/-! ## PDF extractor (`src/formats/pdf.rs`) -/

namespace Pdf

/-- The structural-keyword test of `is_heading_like` in `pdf.rs`: the
lowercased text starts with one of the nine keywords. -/
def heading_keyword (lower : Str) : Bool :=
  hasPrefixStr "chapter".toList lower || hasPrefixStr "part".toList lower ||
  hasPrefixStr "section".toList lower ||
  hasPrefixStr "introduction".toList lower ||
  hasPrefixStr "conclusion".toList lower ||
  hasPrefixStr "appendix".toList lower ||
  hasPrefixStr "preface".toList lower ||
  hasPrefixStr "prologue".toList lower ||
  hasPrefixStr "epilogue".toList lower

/-- The uppercase-ratio branch of `is_heading_like`: some alphabetic
characters, uppercase ratio above 0.6, and length below 80.  Rust compares
`f32` quotients; for the at most 120 alphabetic characters possible here the
`f32` comparison against `0.6` agrees exactly with the rational comparison
`5 * uppercase > 3 * alphabetic` (no fraction with denominator ≤ 120 lands
in the rounding gap around the `f32` nearest to 0.6), which is how it is
written below. -/
def upper_ratio_branch (t : Str) : Bool :=
  let alpha := t.filter isAsciiAlphaCh
  !alpha.isEmpty &&
    decide (3 * alpha.length < 5 * alpha.countP isAsciiUpperCh) &&
    decide (t.length < 80)

/-- Does a word start with an uppercase letter
(`w.chars().next().map(|c| c.is_uppercase()).unwrap_or(false)`)? -/
def first_char_upper (w : Str) : Bool :=
  match w with
  | c :: _ => isAsciiUpperCh c
  | [] => false

/-- The capitalized-words branch of `is_heading_like`: at most 10 words and
more than half of them capitalized.  Rust compares an `f32` quotient with
`0.5`; for at most 59 words this agrees exactly with
`2 * capitalized > words` (an empty word list gives `NaN > 0.5 = false`,
matched by `0 < 0 = false`). -/
def capitalized_words_branch (t : Str) : Bool :=
  let words := splitWhitespace t
  decide (words.length ≤ 10) &&
    decide (words.length < 2 * words.countP first_char_upper)

/-- `is_heading_like` of `pdf.rs`, branch for branch. -/
def is_heading_like (text : Str) : Bool :=
  let t := trim text
  if 120 < t.length then false
  else if 2 < (rustLines t).length then false
  else if endsWithCh t '.' || endsWithCh t ',' then false
  else if heading_keyword (asciiLower t) then true
  else if upper_ratio_branch t then true
  else if t.length < 60 && !(endsWithCh t '.') && !(endsWithCh t ',') then
    capitalized_words_branch t
  else false

/-- `detect_heading_level` of `pdf.rs`. -/
def detect_heading_level (text : Str) : Nat :=
  let lower := asciiLower text
  if hasPrefixStr "part".toList lower || hasPrefixStr "book".toList lower then 1
  else if hasPrefixStr "chapter".toList lower then 2
  else if hasPrefixStr "section".toList lower then 3
  else if (text.filter isAsciiAlphaCh).all isAsciiUpperCh then 2
  else 3

/-- Rust `str::parse::<u32>().is_ok()`: an optional leading `+`, at least one
ASCII digit, nothing else, and a value below `2^32`. -/
def parsesAsU32 (s : Str) : Bool :=
  let digits := match s with
    | '+' :: rest => rest
    | _ => s
  !digits.isEmpty && digits.all isAsciiDigitCh &&
    decide (digits.foldl (fun a c => a * 10 + (c.toNat - 48)) 0 < 4294967296)

/-- `is_pdf_artifact` of `pdf.rs`: page numbers, short header/footer phrases,
and runs of repeated characters. -/
def is_pdf_artifact (text : Str) : Bool :=
  let trimmed := trim text
  if parsesAsU32 trimmed then true
  else if trimmed.length < 50 &&
      (let lower := asciiLower trimmed
       (containsStr "page ".toList lower &&
         decide (0 < lower.countP isAsciiDigitCh)) ||
       lower = "confidential".toList || lower = "draft".toList ||
       hasPrefixStr "Â©".toList lower) then true
  else if decide (3 < trimmed.length) &&
      (List.range (trimmed.length - 2)).all (fun i =>
        trimmed.getD i ' ' = trimmed.getD (i+1) ' ' &&
        trimmed.getD (i+1) ' ' = trimmed.getD (i+2) ' ') then true
  else false

/-- `parse_text_content` of `pdf.rs`: split on blank-line pairs, drop
artifacts, classify headings, normalize paragraph whitespace. -/
def parse_text_content (text : Str) : List ContentBlock :=
  (splitDoubleNl text).foldl (fun blocks para =>
    let trimmed := trim para
    if trimmed = [] then blocks
    else if trimmed.length < 5 &&
        trimmed.all (fun c => isAsciiDigitCh c || isWsChar c) then blocks
    else if is_pdf_artifact trimmed then blocks
    else if is_heading_like trimmed then
      blocks ++ [ContentBlock.Heading (detect_heading_level trimmed) trimmed]
    else
      let normalized :=
        joinSp (splitWhitespace
          (joinSp (((rustLines trimmed).map trim).filter (· ≠ []))))
      if normalized = [] then blocks
      else blocks ++ [ContentBlock.Paragraph normalized []]) []

end Pdf

namespace Pdf

/-- Roman-numeral letters as matched by the chapter regex character class
`[ivxlcdm]` under the `i` flag (both cases). -/
def romanCh (c : Char) : Bool :=
  c = 'i' || c = 'v' || c = 'x' || c = 'l' || c = 'c' || c = 'd' || c = 'm' ||
  c = 'I' || c = 'V' || c = 'X' || c = 'L' || c = 'C' || c = 'D' || c = 'M'

/-- Regex `\w` (with `(?i)` — same set): letters, digits, underscore. -/
def wordCh (c : Char) : Bool :=
  isAsciiAlphaCh c || isAsciiDigitCh c || c = '_'

/-- After a keyword of length `k`, `\s+(?:\d+|[ivxlcdm]+)`: at least one
whitespace character followed (after the maximal whitespace run, to which
the regex backtracks) by a digit or roman letter. -/
def afterKw (s : Str) (k : Nat) : Bool :=
  let rest := s.drop k
  match rest with
  | c :: _ =>
    isWsChar c &&
      (match rest.dropWhile isWsChar with
       | d :: _ => isAsciiDigitCh d || romanCh d
       | [] => false)
  | [] => false

/-- First alternative of the chapter regex of `parse_text_to_chapters`:
`(?i)(?:chapter|part|section)\s+(?:\d+|[ivxlcdm]+)` at a line start. -/
def matchAlt1 (s : Str) : Bool :=
  let lower := asciiLower s
  (hasPrefixStr "chapter".toList lower && afterKw s 7) ||
  (hasPrefixStr "part".toList lower && afterKw s 4) ||
  (hasPrefixStr "section".toList lower && afterKw s 7)

/-- Second alternative: `(?i)[ivxlcdm]+\.\s+\w` at a line start. -/
def matchAlt2 (s : Str) : Bool :=
  let run := s.takeWhile romanCh
  !run.isEmpty &&
    (match s.drop run.length with
     | '.' :: rest2 =>
       (match rest2 with
        | c :: _ => isWsChar c
        | [] => false) &&
       (match rest2.dropWhile isWsChar with
        | d :: _ => wordCh d
        | [] => false)
     | _ => false)

/-- Third alternative: `(?i)(?:\d+\.)\s*[A-Z]` at a line start (the `i` flag
makes `[A-Z]` match either case). -/
def matchAlt3 (s : Str) : Bool :=
  let run := s.takeWhile isAsciiDigitCh
  !run.isEmpty &&
    (match s.drop run.length with
     | '.' :: rest2 =>
       (match rest2.dropWhile isWsChar with
        | d :: _ => isAsciiAlphaCh d
        | [] => false)
     | _ => false)

/-- Does the chapter regex match at this suffix (which in
`parse_text_to_chapters` always begins at a line start, every alternative
being `^`-anchored)? -/
def chapterPatternAt (s : Str) : Bool := matchAlt1 s || matchAlt2 s || matchAlt3 s

/-- Positions right after each `'\n'` — together with 0, the line starts
that `text[..mat.start()].rfind('\n')` can produce. -/
def lineStartPosAux : Str → Nat → List Nat
  | [], _ => []
  | c :: rest, p =>
    if c = '\n' then (p+1) :: lineStartPosAux rest (p+1)
    else lineStartPosAux rest (p+1)

def lineStartPositions (s : Str) : List Nat := 0 :: lineStartPosAux s 0

/-- The `chapter_starts` accumulation of `parse_text_to_chapters`: 0, then
every line start beyond offset 50 whose line begins a chapter-regex match
(duplicates cannot arise, the positions being strictly increasing). -/
def chapter_starts (text : Str) : List Nat :=
  0 :: (lineStartPositions text).filter
    (fun p => decide (50 < p) && chapterPatternAt (text.drop p))

/-- End offsets of the matches of `\f|\n{4,}` (form feed, or a maximal run of
at least four newlines), scanning left to right: `p` is the current offset,
`r` the length of the newline run ending just before `p`. -/
def page_break_ends_a : Str → Nat → Nat → List Nat
  | [], p, r => if 4 ≤ r then [p] else []
  | c :: rest, p, r =>
    if c = '\n' then page_break_ends_a rest (p+1) (r+1)
    else if c = '\x0c' then
      (if 4 ≤ r then [p] else []) ++ (p+1) :: page_break_ends_a rest (p+1) 0
    else
      (if 4 ≤ r then [p] else []) ++ page_break_ends_a rest (p+1) 0

/-- `break_positions` of `parse_text_to_chapters`: 0 then the match ends. -/
def break_positions (text : Str) : List Nat := 0 :: page_break_ends_a text 0 0

/-- The final split-point list: the chapter-regex starts, replaced by the
page-break positions when only the initial 0 was found and the page breaks
number between 2 and 99, and closed with the text length. -/
def final_starts (text : Str) : List Nat :=
  let cs0 := chapter_starts text
  let cs1 :=
    if cs0.length = 1 then
      let bp := break_positions text
      if 1 < bp.length ∧ bp.length < 100 then bp else cs0
    else cs0
  cs1 ++ [text.length]

/-- `windows(2)` over the split points. -/
def windows2 : List Nat → List (Nat × Nat)
  | a :: b :: rest => (a, b) :: windows2 (b :: rest)
  | _ => []

/-- `&text[start..end]`. -/
def slice (text : Str) (s e : Nat) : Str := (text.drop s).take (e - s)

/-- The heading arm of the title `find_map` in `parse_text_to_chapters`. -/
def heading_text_of : ContentBlock → Option Str
  | ContentBlock.Heading _ t => some t
  | _ => none

/-- First line of a text, `text.lines().next().unwrap_or("")`. -/
def firstLine (t : Str) : Str := (rustLines t).headD []

/-- The paragraph arm of the title `find_map`: a non-empty paragraph whose
first line is under 100 characters. -/
def short_para_line_of : ContentBlock → Option Str
  | ContentBlock.Paragraph t _ =>
    if t = [] then none
    else if (firstLine t).length < 100 then some (firstLine t) else none
  | _ => none

/-- The chapter-title choice of `parse_text_to_chapters` (lines 268–287):
first heading's text, else the first paragraph whose first line is under 100
characters (`find_map` keeps scanning past longer paragraphs). -/
def segment_title (blocks : List ContentBlock) : Option Str :=
  match blocks.findSome? heading_text_of with
  | some t => some t
  | none => blocks.findSome? short_para_line_of

/-- The body of the windows loop: `none` when the chunk is skipped (blank, or
no blocks survive), otherwise the chapter (order = the window's index) and
its TOC entry. -/
def mkSegChapter (text : Str) (iw : Nat × (Nat × Nat)) :
    Option (Chapter × TocEntry) :=
  let i := iw.1
  let chunk := slice text iw.2.1 iw.2.2
  if trim chunk = [] then none
  else
    let blocks := parse_text_content chunk
    if blocks = [] then none
    else
      let cid := "chapter-".toList ++ natToStr i
      let display := (segment_title blocks).getD
        ("Section ".toList ++ natToStr (i + 1))
      some ({ id := cid, title := some display, number := none,
              blocks := blocks, order := i },
            TocEntry.new display cid 0)

/-- The surviving (chapter, TOC-entry) pairs of the windows loop. -/
def produced_chapters (text : Str) : List (Chapter × TocEntry) :=
  ((windows2 (final_starts text)).enum).filterMap (mkSegChapter text)

/-- `parse_text_to_chapters` of `pdf.rs`: split points, windows loop, and the
single-chapter fallback when nothing was produced. -/
def parse_text_to_chapters (text : Str) : List Chapter × List TocEntry :=
  let produced := produced_chapters text
  let chapters := produced.map Prod.fst
  let toc := produced.map Prod.snd
  if chapters = [] then
    let blocks := parse_text_content text
    ([{ id := "main".toList, title := some "Document".toList, number := none,
        blocks := if blocks = [] then [ContentBlock.Paragraph (trim text) []]
                  else blocks,
        order := 0 }], toc)
  else (chapters, toc)

/-- The placeholder paragraph text of `extract_content_lopdf`. -/
def pagePlaceholder (startP endP : Nat) : Str :=
  "[PDF content from pages ".toList ++ natToStr startP ++ " to ".toList ++
  natToStr endP ++
  ". Text extraction may be limited for this document.]".toList

/-- One iteration of the page-group loop of `extract_content_lopdf`: the
chapter (with `order = i`) and TOC entry for page group `i`. -/
def lopdf_pair (page_count pages_per_chapter num_chapters i : Nat) :
    Chapter × TocEntry :=
  let start_page := i * pages_per_chapter + 1
  let end_page := min ((i + 1) * pages_per_chapter) page_count
  let cid := "pages-".toList ++ natToStr start_page ++ "-".toList ++
    natToStr end_page
  let ctitle := if num_chapters = 1 then "Document".toList
    else "Pages ".toList ++ natToStr start_page ++ "-".toList ++
      natToStr end_page
  ({ id := cid, title := some ctitle, number := none,
     blocks := [ContentBlock.Paragraph (pagePlaceholder start_page end_page) []],
     order := i }, TocEntry.new ctitle cid 0)

/-- `extract_content_lopdf` of `pdf.rs`, as a function of the page count the
loaded document reports.  `none` models the panic of
`(page_count + pages_per_chapter - 1) / pages_per_chapter` when
`pages_per_chapter == 0` (for `page_count == 0`): the `usize` subtraction
overflows in debug builds and the division by zero panics in every build. -/
def extract_content_lopdf (page_count : Nat) :
    Option (List Chapter × List TocEntry) :=
  let pages_per_chapter := if page_count ≤ 20 then page_count else 10
  if pages_per_chapter = 0 then none
  else
    let num_chapters :=
      (page_count + pages_per_chapter - 1) / pages_per_chapter
    let pairs := (List.range num_chapters).map
      (lopdf_pair page_count pages_per_chapter num_chapters)
    let chapters := pairs.map Prod.fst
    let toc := pairs.map Prod.snd
    if chapters = [] then
      some ([{ id := "main".toList, title := some "Document".toList,
               number := none,
               blocks := [ContentBlock.Paragraph
                 "[PDF text extraction failed. The document may be scanned or have complex formatting.]".toList []],
               order := 0 }], toc)
    else some (chapters, toc)

/-- `decode_pdf_string` of `pdf.rs`: drop control characters other than
newline and tab, then trim. -/
def decode_pdf_string (s : Str) : Str :=
  trim (s.filter (fun c => !isControlCh c || c = '\n' || c = '\t'))

/-- The title assignment of `pdf.rs::metadata`: the Info dictionary's Title
(decoded) when its trimmed form is non-empty, else the file stem
(`file_stem().and_then(to_str).unwrap_or("Unknown")`, passed in here as
`stem`). -/
def metadata_title (info_title : Option Str) (stem : Str) : Str :=
  let t := match info_title with
    | some s =>
      let d := decode_pdf_string s
      if trim d ≠ [] then d else []
    | none => []
  if t = [] then stem else t

end Pdf

/-! ## EPUB extractor (`src/formats/epub.rs`)

The `epub` crate supplies the spine and each item's resource bytes, and
`parse_html_content` (built on `html2text`) turns them into blocks; the spine
is therefore taken as a list of `(idref, resolved blocks)` pairs, `none`
standing for `get_resource` returning `None`.  The chapter-assembly loop of
`extract_content` (lines 75–104) is translated below. -/

namespace Epub

/-- The title `find_map` of `extract_content`: first heading of level ≤ 2. -/
def first_heading_le2 (blocks : List ContentBlock) : Option Str :=
  blocks.findSome? (fun b =>
    match b with
    | ContentBlock.Heading lv t => if lv ≤ 2 then some t else none
    | _ => none)

/-- The spine loop of `extract_content`: `order` is incremented only when a
resource resolves and a chapter is pushed. -/
def extract_chapters_go :
    List (Str × Option (List ContentBlock)) → Nat → List Chapter
  | [], _ => []
  | (idref, res) :: rest, order =>
    match res with
    | some blocks =>
      { id := idref, title := first_heading_le2 blocks, number := none,
        blocks := blocks, order := order } ::
        extract_chapters_go rest (order + 1)
    | none => extract_chapters_go rest order

/-- The chapter list `extract_content` returns for a spine. -/
def extract_chapters (spine : List (Str × Option (List ContentBlock))) :
    List Chapter :=
  extract_chapters_go spine 0

/-- The title of `extract_metadata` in `epub.rs`: the container's `title`
metadata entry, else the constant `"Unknown Title"` — the file stem is not
consulted. -/
def metadata_title (title_entry : Option Str) : Str :=
  title_entry.getD "Unknown Title".toList

end Epub

/-! ## Markdown extractor (`src/formats/markdown.rs`)

`pulldown_cmark` turns the body into events; the block list it yields is
taken as input where needed.  The frontmatter scan and the title fallback
chain of `parse_markdown`/`parse` are translated from the source. -/

namespace Markdown

/-- One frontmatter line of `parse_markdown`: on `key: value` with key
`title` (trimmed, lowercased), the title becomes the value trimmed of
whitespace and then of surrounding quote characters. -/
def fm_line_title (acc : Str) (line : Str) : Str :=
  match splitOnceCh ':' line with
  | some (k, v) =>
    if asciiLower (trim k) = "title".toList then
      trimMatchesSet (trim v) ['"', '\'']
    else acc
  | none => acc

/-- The frontmatter title of `parse_markdown` (lines 42–75): a leading
`---` block, parsed as flat `key: value` lines; the empty string when there
is no frontmatter or no title key (the `BookMetadata::default()` title). -/
def fm_title (source : Str) : Str :=
  if hasPrefixStr "---".toList source then
    match findSubstrIdx "---".toList (source.drop 3) with
    | some e => ((source.drop 3).take e |> rustLines).foldl fm_line_title []
    | none => []
  else []

/-- `parse_markdown_content` wraps all blocks in the single chapter `main`
with order 0 and no title. -/
def md_chapters (blocks : List ContentBlock) : List Chapter :=
  [{ id := "main".toList, title := none, number := none,
     blocks := blocks, order := 0 }]

/-- The title fallback chain of `parse_markdown` (lines 80–91) and `parse`
(lines 16–27): frontmatter title, else the text of the chapter's FIRST block
when that block is a level-1 heading, else the file stem. -/
def book_title (source : Str) (blocks : List ContentBlock) (stem : Str) : Str :=
  let t0 := fm_title source
  let t1 :=
    if t0 = [] then
      match blocks with
      | ContentBlock.Heading 1 tx :: _ => tx
      | _ => t0
    else t0
  if t1 = [] then stem else t1

end Markdown


/-! ## Concrete inputs used by counterexamples and witnesses -/

/-- Text a PDF's primary extraction can yield: four leading newlines (a
page-break run) followed by one word.  The first window of the page-break
split is blank and is skipped, so the surviving chapter keeps `order = 1`
at index 0. -/
def cexTextC1 : Str := "\n\n\n\nHello".toList

/-- A 110-character single-line lowercase paragraph (no repeated-character
artifact) followed by a short second paragraph. -/
def longAb : Str := (List.replicate 55 ['a', 'b']).flatten

/-- PDF text whose first paragraph's first line is 110 characters long and
whose second paragraph is short: the title `find_map` skips the first
paragraph and takes the second. -/
def cexTextC8 : Str := longAb ++ "\n\nzz short".toList

/-- The plain-text scenario of the specification. -/
def cexTextC5 : Str :=
  "Chapter 1\n\nHello world.\n\nChapter 2\n\nGoodbye.".toList

/-- Eleven words, every one capitalized, 32 characters in all: more than
half the words start uppercase, the text is under 60 characters with no
trailing punctuation, yet the word count exceeds the 10-word cap of
`is_heading_like`. -/
def cexTextC7 : Str := "Aa Ba Ca Da Ea Fa Ga Ha Ia Ja Ka".toList

/-! ## Theorems -/

/-- C9.  Heading classification is deterministic: the embedded classifiers
are pure functions of their input, so two calls with the same string return
the same boolean (and `detect_heading_level` the same level). -/
theorem C9_classifiers_deterministic :
    ∀ s : Str,
      Pdf.is_heading_like s = Pdf.is_heading_like s ∧
      Txt.is_likely_header s = Txt.is_likely_header s ∧
      Pdf.detect_heading_level s = Pdf.detect_heading_level s :=
  fun _ => ⟨rfl, rfl, rfl⟩

/-- C3.  The page-bucket fallback of `extract_content_lopdf` PANICS when the
loaded document reports zero pages: `pages_per_chapter` is 0, so
`(page_count + pages_per_chapter - 1) / pages_per_chapter` underflows the
`usize` subtraction (debug) and divides by zero (all builds), modelled here
as `none`.  The claim's "terminates without panicking and returns at least
one chapter ... including when the computed page count is zero" fails on
exactly that input. -/
theorem C3_lopdf_zero_page_panic : Pdf.extract_content_lopdf 0 = none := rfl

/-- C5 counterexample.  The scenario text produces ONE chapter, not the two
the claim states: the plain-text extractor always wraps all blocks in a
single chapter. -/
theorem C5_counterexample :
    (Txt.parse_text_content cexTextC5).chapters.length ≠ 2 := by decide

/-- C5 (amended).  The scenario text yields exactly one chapter whose blocks
are Heading "Chapter 1", Paragraph "Hello world.", Heading "Chapter 2",
Paragraph "Goodbye." in source order. -/
theorem C5_plaintext_one_chapter_amended :
    (Txt.parse_text_content cexTextC5).chapters.map Chapter.blocks =
      [[ContentBlock.Heading 2 "Chapter 1".toList,
        ContentBlock.Paragraph "Hello world.".toList [],
        ContentBlock.Heading 2 "Chapter 2".toList,
        ContentBlock.Paragraph "Goodbye.".toList []]] := by decide

/-- C1 counterexample.  On `cexTextC1` the PDF text path returns one chapter
whose `order` is 1, so `chapters[i].order == i` fails at i = 0. -/
theorem C1_counterexample :
    (Pdf.parse_text_to_chapters cexTextC1).1.map Chapter.order ≠
      List.range (Pdf.parse_text_to_chapters cexTextC1).1.length := by decide

/-- C2 counterexample.  An EPUB container that opens but whose spine yields
no resolvable item produces an EMPTY chapter list — the EPUB path, unlike
the others, has no non-empty fallback. -/
theorem C2_counterexample : Epub.extract_chapters [] = [] := rfl

/-- C4 counterexample.  An EPUB with no title metadata gets the constant
title "Unknown Title", not the file stem (here "book"). -/
theorem C4_counterexample :
    Epub.metadata_title none = "Unknown Title".toList ∧
      Epub.metadata_title none ≠ "book".toList := by
  exact ⟨rfl, by decide⟩

/-- C7 counterexample.  `cexTextC7` satisfies every condition of the claim —
under 60 characters, no trailing '.' or ',', the keyword and uppercase-ratio
tests fail, and all eleven words start uppercase — yet `is_heading_like`
rejects it: the final branch also requires at most 10 words. -/
theorem C7_counterexample :
    (trim cexTextC7).length < 60 ∧
    endsWithCh (trim cexTextC7) '.' = false ∧
    endsWithCh (trim cexTextC7) ',' = false ∧
    Pdf.heading_keyword (asciiLower (trim cexTextC7)) = false ∧
    Pdf.upper_ratio_branch (trim cexTextC7) = false ∧
    (splitWhitespace (trim cexTextC7)).length <
      2 * (splitWhitespace (trim cexTextC7)).countP Pdf.first_char_upper ∧
    Pdf.is_heading_like cexTextC7 = false := by decide

/-- C6 counterexample.  Markdown whose frontmatter omits a title and whose
first level-1 heading is NOT the first block falls back to the file stem:
the code only inspects `blocks.first()`, never a later heading. -/
theorem C6_counterexample :
    Markdown.book_title "Intro para.\n\n# Real Title".toList
        [ContentBlock.Paragraph "Intro para.".toList [],
         ContentBlock.Heading 1 "Real Title".toList]
        "notes".toList = "notes".toList ∧
      ("notes".toList : Str) ≠ "Real Title".toList := by decide

set_option maxRecDepth 20000 in
/-- C8 counterexample.  On `cexTextC8` the segment's first paragraph's first
line is 110 characters (≥ 100), yet the chapter title is the SECOND
paragraph's first line "zz short", not "Section 1": `find_map` consults
later paragraphs. -/
theorem C8_counterexample :
    (Pdf.parse_text_to_chapters cexTextC8).1.map Chapter.title =
        [some "zz short".toList] ∧
      ("zz short".toList : Str) ≠ "Section 1".toList := by decide

/-- C8 (amended).  The chapter title of a PDF text segment is the first
Heading's text; with no Heading anywhere it is the first line of the FIRST
paragraph whose text is non-empty and whose first line is under 100
characters — paragraphs whose first line is 100 characters or longer are
skipped and LATER paragraphs are consulted; only when none qualifies does
the title fall back to "Section N". -/
theorem C8_segment_title_amended (pre rest : List ContentBlock) (t : Str)
    (hpre : ∀ b ∈ pre,
      Pdf.heading_text_of b = none ∧ Pdf.short_para_line_of b = none)
    (hrest : ∀ b ∈ rest, Pdf.heading_text_of b = none)
    (ht : t ≠ []) (hlen : (Pdf.firstLine t).length < 100) :
    Pdf.segment_title (pre ++ ContentBlock.Paragraph t [] :: rest) =
      some (Pdf.firstLine t) := by
  have hpara : Pdf.short_para_line_of (ContentBlock.Paragraph t []) =
      some (Pdf.firstLine t) := by
    simp [Pdf.short_para_line_of, ht, hlen]
  have hhead : (pre ++ ContentBlock.Paragraph t [] :: rest).findSome?
      Pdf.heading_text_of = none := by
    rw [List.findSome?_eq_none_iff]
    intro x hx
    rcases List.mem_append.mp hx with hx | hx
    · exact (hpre x hx).1
    · rcases List.mem_cons.mp hx with rfl | hx
      · rfl
      · exact hrest x hx
  unfold Pdf.segment_title
  rw [hhead]
  induction pre with
  | nil => simp [List.findSome?_cons, hpara]
  | cons b bs ih =>
    have hb := hpre b (List.mem_cons_self b bs)
    have ih' := ih (fun x hx => hpre x (List.mem_cons_of_mem b hx))
      (by simpa [List.findSome?_cons, hb.1] using hhead)
    simpa [List.findSome?_cons, hb.2] using ih'

/-- C8 witness: the amended title rule evaluated on the blocks of the
`cexTextC8` segment. -/
theorem C8_witness :
    Pdf.segment_title
        [ContentBlock.Paragraph longAb [],
         ContentBlock.Paragraph "zz short".toList []] =
      some "zz short".toList := by
  have h := C8_segment_title_amended [ContentBlock.Paragraph longAb []] []
    "zz short".toList (by decide) (by decide) (by decide) (by decide)
  simpa using h

/-- C10 (implicit claim, confirmed).  In the plain-text extractor, every
line of at most 80 characters with no trailing '.', ',' or ':' whose first
whitespace-separated word consists solely of roman-numeral letters (either
case) is classified as a heading, with no restriction on how many words
follow: the roman-numeral check at txt.rs:132–138 returns `true`
unconditionally. -/
theorem C10_roman_first_word_heading (line : Str)
    (h80 : line.length ≤ 80)
    (hdot : endsWithCh line '.' = false)
    (hcom : endsWithCh line ',' = false)
    (hcol : endsWithCh line ':' = false)
    (w : Str) (hw : (splitWhitespace line).head? = some w)
    (hr : Txt.is_roman_numeral w = true) :
    Txt.is_likely_header line = true := by
  have h80' : ¬ (80 < line.length) := by omega
  simp only [Txt.is_likely_header, h80', if_false, hdot, hcom, hcol,
    Bool.or_self, Bool.or_false, Bool.false_or, hw, hr, if_true]
  simp

/-- C10 witness: the prose line "I went to the store" (first word "I", a
roman-numeral letter) is classified as a heading and becomes a level-2
Heading block. -/
theorem C10_witness :
    Txt.is_likely_header "I went to the store".toList = true ∧
      (Txt.parse_text_content "I went to the store".toList).chapters.map
          Chapter.blocks =
        [[ContentBlock.Heading 2 "I went to the store".toList]] :=
  ⟨C10_roman_first_word_heading "I went to the store".toList (by decide)
      (by decide) (by decide) (by decide) "I".toList (by decide) (by decide),
    by decide⟩

/-- C7 (amended).  The final branch of `is_heading_like` accepts a text
(once the earlier checks pass: short enough, at most two lines, no trailing
'.' or ',', keyword and uppercase-ratio tests failed) of length under 60
with more than half of its words starting uppercase ONLY when it has at
most 10 words — the claim's "no upper bound on the number of words" is
false, the bound is 10. -/
theorem C7_capitalized_heading_amended (s : Str)
    (h60 : (trim s).length < 60)
    (hlines : (rustLines (trim s)).length ≤ 2)
    (hdot : endsWithCh (trim s) '.' = false)
    (hcom : endsWithCh (trim s) ',' = false)
    (hkw : Pdf.heading_keyword (asciiLower (trim s)) = false)
    (hur : Pdf.upper_ratio_branch (trim s) = false)
    (hwords : (splitWhitespace (trim s)).length ≤ 10)
    (hcap : (splitWhitespace (trim s)).length <
      2 * (splitWhitespace (trim s)).countP Pdf.first_char_upper) :
    Pdf.is_heading_like s = true := by
  have h120 : ¬ (120 < (trim s).length) := by omega
  have h2' : ¬ (2 < (rustLines (trim s)).length) := by omega
  simp only [Pdf.is_heading_like, h120, if_false, h2', hdot, hcom,
    Bool.or_self, Bool.or_false, Bool.false_or, hkw, hur,
    Bool.false_eq_true, Bool.not_false, Bool.and_true, if_true,
    Pdf.capitalized_words_branch]
  simp [h60, hwords, hcap]

/-- C7 witness: "My Great Title" (3 capitalized words) reaches the final
branch and is accepted. -/
theorem C7_witness : Pdf.is_heading_like "My Great Title".toList = true :=
  C7_capitalized_heading_amended "My Great Title".toList (by decide)
    (by decide) (by decide) (by decide) (by decide) (by decide) (by decide)
    (by decide)

/-- C4 (amended).  With a non-empty file stem: the PDF, Markdown and
plain-text titles are never empty and fall back to the stem (PDF whenever
the Info Title is absent, Markdown when neither frontmatter nor a leading
level-1 heading provides one, plain text always); the EPUB title instead
falls back to the CONSTANT "Unknown Title" — the stem is never consulted —
and passes the container's title metadata through verbatim. -/
theorem C4_title_fallback_amended (stem : Str) (hstem : 0 < stem.length) :
    (∀ t : Option Str, 0 < (Pdf.metadata_title t stem).length) ∧
    Pdf.metadata_title none stem = stem ∧
    (∀ source blocks, 0 < (Markdown.book_title source blocks stem).length) ∧
    Txt.metadata_title stem = stem ∧
    Epub.metadata_title none = "Unknown Title".toList := by
  refine ⟨?_, ?_, ?_, rfl, rfl⟩
  · intro t
    cases t with
    | none => simpa [Pdf.metadata_title] using hstem
    | some s =>
      simp only [Pdf.metadata_title]
      split
      · next h =>
        have hd : Pdf.decode_pdf_string s ≠ [] := by
          intro hnil
          simp [hnil] at h
          exact h rfl
        simp only [if_neg hd]
        exact List.length_pos.mpr hd
      · simpa using hstem
  · simp [Pdf.metadata_title]
  · intro source blocks
    have key : ∀ x : Str, 0 < (if x = [] then stem else x).length := by
      intro x
      by_cases hx : x = []
      · simpa [hx] using hstem
      · simpa [hx] using List.length_pos.mpr hx
    simpa only [Markdown.book_title] using key _

/-- C4 witness: the fallbacks evaluated at the stem "book". -/
theorem C4_witness :
    Pdf.metadata_title none "book".toList = "book".toList ∧
      Txt.metadata_title "book".toList = "book".toList := by
  have h := C4_title_fallback_amended "book".toList (by decide)
  exact ⟨h.2.1, h.2.2.2.1⟩

/-- C6 (amended).  When Markdown frontmatter yields no title, the title is
the text of the FIRST block if and only if that block is a level-1 Heading
with non-empty text; in every other case (including a level-1 Heading
appearing later in the document) it is the file stem. -/
theorem C6_md_title_first_block_amended (source : Str)
    (blocks : List ContentBlock) (stem : Str)
    (hfm : Markdown.fm_title source = []) :
    Markdown.book_title source blocks stem =
      (match blocks with
       | ContentBlock.Heading 1 tx :: _ => if tx = [] then stem else tx
       | _ => stem) := by
  unfold Markdown.book_title
  rw [hfm]
  cases blocks with
  | nil => simp
  | cons b bs =>
    cases b with
    | Heading lv tx =>
      match lv with
      | 0 => simp
      | 1 => by_cases htx : tx = [] <;> simp [htx]
      | (n+2) => simp
    | Paragraph t st => simp
    | Quote t a => simp
    | Code l c => simp
    | Image s a c d => simp
    | ListB o i => simp
    | Separator => simp
    | Footnote i c => simp
    | RawHtml h => simp
    | Table h r => simp
    | Break => simp

/-- C6 witness: a document with no frontmatter whose first block is the
level-1 heading "My Title". -/
theorem C6_witness :
    Markdown.book_title "# My Title\n\nbody".toList
        [ContentBlock.Heading 1 "My Title".toList,
         ContentBlock.Paragraph "body".toList []]
        "stem".toList = "My Title".toList := by
  have h := C6_md_title_first_block_amended "# My Title\n\nbody".toList
    [ContentBlock.Heading 1 "My Title".toList,
     ContentBlock.Paragraph "body".toList []]
    "stem".toList (by decide)
  simpa using h


/-- Every chapter the windows loop produces carries the index of its window
as its `order`. -/
lemma mkSegChapter_order (text : Str) (x : Nat × Nat × Nat)
    (c : Chapter × TocEntry) (h : Pdf.mkSegChapter text x = some c) :
    c.1.order = x.1 := by
  unfold Pdf.mkSegChapter at h
  simp only [] at h
  split at h
  · exact absurd h (by simp)
  · split at h
    · exact absurd h (by simp)
    · cases h
      rfl

/-- The orders of the surviving chapters form a sublist of the window
indices. -/
lemma orders_sublist (text : Str) :
    ∀ l : List (Nat × Nat × Nat),
      List.Sublist
        ((l.filterMap (Pdf.mkSegChapter text)).map (fun p => p.1.order))
        (l.map Prod.fst)
  | [] => List.Sublist.refl _
  | x :: xs => by
    cases h : Pdf.mkSegChapter text x with
    | none =>
      simpa [List.filterMap_cons, h] using
        List.Sublist.cons x.1 (orders_sublist text xs)
    | some c =>
      rw [List.filterMap_cons, h, List.map_cons, List.map_cons,
        mkSegChapter_order text x c h]
      exact List.Sublist.cons₂ x.1 (orders_sublist text xs)

/-- The orders of the surviving chapters of the PDF windows loop are
strictly increasing. -/
lemma produced_orders_pairwise (text : Str) :
    ((Pdf.produced_chapters text).map (fun p => p.1.order)).Pairwise
      (· < ·) := by
  have h1 := orders_sublist text ((Pdf.windows2 (Pdf.final_starts text)).enum)
  rw [List.enum_map_fst] at h1
  exact List.Pairwise.sublist h1 (List.pairwise_lt_range _)

/-- The orders the EPUB spine loop assigns, starting at `k`, are the
consecutive run `k, k+1, ...`. -/
lemma epub_go_orders :
    ∀ (items : List (Str × Option (List ContentBlock))) (k : Nat),
      (Epub.extract_chapters_go items k).map Chapter.order =
        List.range' k (Epub.extract_chapters_go items k).length
  | [], _ => rfl
  | (idref, res) :: rest, k => by
    cases res with
    | some blocks =>
      simp only [Epub.extract_chapters_go, List.map_cons, List.length_cons,
        List.range'_succ]
      exact congrArg (List.cons k) (epub_go_orders rest (k + 1))
    | none => exact epub_go_orders rest k

/-- The chapter list of the lopdf page-group loop carries `order = i` at
position `i`. -/
lemma lopdf_orders (pc ppc num : Nat) :
    (((List.range num).map (Pdf.lopdf_pair pc ppc num)).map Prod.fst).map
        Chapter.order = List.range num := by
  rw [List.map_map, List.map_map]
  exact (List.map_congr_left (fun i _ => rfl)).trans (List.map_id' _)

/-- C1 (amended).  `chapters[i].order == i` holds for the plain-text,
Markdown and EPUB extractors and for the lopdf page-bucket fallback
(whenever it returns), i.e. their order lists equal `range length`; on the
PDF text path the orders are the indices of the windows that SURVIVE the
blank-chunk/empty-blocks skip, so they are strictly increasing (hence
`chapters[i].order ≥ i`) but can skip values when a segment is dropped —
see `C1_counterexample`. -/
theorem C1_chapter_orders_amended :
    (∀ text : Str,
      (Txt.parse_text_content text).chapters.map Chapter.order =
        List.range (Txt.parse_text_content text).chapters.length) ∧
    (∀ blocks : List ContentBlock,
      (Markdown.md_chapters blocks).map Chapter.order =
        List.range (Markdown.md_chapters blocks).length) ∧
    (∀ spine : List (Str × Option (List ContentBlock)),
      (Epub.extract_chapters spine).map Chapter.order =
        List.range (Epub.extract_chapters spine).length) ∧
    (∀ text : Str,
      ((Pdf.parse_text_to_chapters text).1.map Chapter.order).Pairwise
        (· < ·)) ∧
    (∀ n : Nat,
      (Pdf.extract_content_lopdf n).elim True
        (fun r => r.1.map Chapter.order = List.range r.1.length)) := by
  refine ⟨fun _ => rfl, fun _ => rfl, ?_, ?_, ?_⟩
  · intro spine
    rw [List.range_eq_range']
    exact epub_go_orders spine 0
  · intro text
    unfold Pdf.parse_text_to_chapters
    simp only []
    split
    · exact List.pairwise_singleton _ _
    · have h := produced_orders_pairwise text
      simpa [List.map_map, Function.comp] using h
  · intro n
    unfold Pdf.extract_content_lopdf
    simp only []
    by_cases h0 : (if n ≤ 20 then n else 10) = 0
    · rw [if_pos h0]
      trivial
    · rw [if_neg h0]
      by_cases hemp :
          ((List.range ((n + (if n ≤ 20 then n else 10) - 1) /
              (if n ≤ 20 then n else 10))).map
            (Pdf.lopdf_pair n (if n ≤ 20 then n else 10)
              ((n + (if n ≤ 20 then n else 10) - 1) /
                (if n ≤ 20 then n else 10)))).map Prod.fst = []
      · rw [if_pos hemp]
        simp only [Option.elim]
        rfl
      · rw [if_neg hemp]
        simp only [Option.elim]
        rw [lopdf_orders]
        simp

/-- C2 (amended).  The PDF text path, the lopdf page-bucket fallback
(whenever it returns at all — see C3 for `page_count = 0`), the plain-text
extractor and the Markdown extractor always produce a non-empty chapter
list (plain text and Markdown: exactly one chapter).  The EPUB path is the
exception: it has no such fallback and yields an empty list when no spine
item's resource resolves — see `C2_counterexample`. -/
theorem C2_nonempty_chapters_amended :
    (∀ text : Str, 0 < (Pdf.parse_text_to_chapters text).1.length) ∧
    (∀ n : Nat,
      (Pdf.extract_content_lopdf n).elim True (fun r => 0 < r.1.length)) ∧
    (∀ text : Str, (Txt.parse_text_content text).chapters.length = 1) ∧
    (∀ blocks : List ContentBlock,
      (Markdown.md_chapters blocks).length = 1) := by
  refine ⟨?_, ?_, fun _ => rfl, fun _ => rfl⟩
  · intro text
    unfold Pdf.parse_text_to_chapters
    simp only []
    split
    · simp
    · next h => exact List.length_pos.mpr h
  · intro n
    unfold Pdf.extract_content_lopdf
    simp only []
    by_cases h0 : (if n ≤ 20 then n else 10) = 0
    · rw [if_pos h0]
      trivial
    · rw [if_neg h0]
      by_cases hemp :
          ((List.range ((n + (if n ≤ 20 then n else 10) - 1) /
              (if n ≤ 20 then n else 10))).map
            (Pdf.lopdf_pair n (if n ≤ 20 then n else 10)
              ((n + (if n ≤ 20 then n else 10) - 1) /
                (if n ≤ 20 then n else 10)))).map Prod.fst = []
      · rw [if_pos hemp]
        simp only [Option.elim]
        simp
      · rw [if_neg hemp]
        simp only [Option.elim]
        exact List.length_pos.mpr hemp
